import Mathlib

/-!
# Verification of the Justin Wallet payment-workflow core

Shallow embedding of `backend/agents/payment_agent.py` and
`backend/agents/multi_payment_agent.py`.

Modelling conventions:
* Python strings are Lean `String`; string algorithms (split, strip, lower,
  slicing, regex search) are implemented on the character list `s.toList`,
  which matches Python's code-point semantics.
* Dict keys that are always present in the records the program itself creates
  are plain fields; a key accessed with `dict.get(k, default)` whose presence
  varies is an `Option` field (with `none` = key absent), and a stored Python
  `None` under an always-present key is an inner `Option`
  (`Option (Option _)`).
* Timestamps are integer epoch seconds (`Int`); `datetime.fromisoformat`
  applied to a stored well-formed ISO string is the identity on that integer,
  and applied to `''` / `None` it raises (`ValueError` / `TypeError`),
  modelled with `Except String`.
* Python `float` amounts are modelled by exact fractions (`Frac`); the
  program uses IEEE-754 doubles, so theorems never invoke exactness or
  reordering of this arithmetic (see the caveat on `Frac`); `float(s)` on a
  non-numeric string raises `ValueError`. The `f"{x:.2f}"` format is decimal
  rounding half-to-even at two places (exact on the small integer amounts
  evaluated concretely).
* JSON-encoded `system` messages are modelled structurally by `MsgContent`.
* Fallible code returns `Except String _`; an `Except.error` is an uncaught
  Python exception escaping the transition.
-/

/-- Python truthiness of an optional string: `None` and `''` are falsy. -/
def pyTruthyOpt (o : Option String) : Bool :=
  match o with
  | some s => s ≠ ""
  | none => false

/-- Split a character list at every occurrence of `sep`, keeping empty
segments: the behaviour of Python `s.split(sep)` (so `"" → [""]`). -/
def splitOnChar (sep : Char) : List Char → List (List Char)
  | [] => [[]]
  | c :: rest =>
    let r := splitOnChar sep rest
    if c = sep then [] :: r
    else
      match r with
      | [] => [[c]]
      | h :: t => (c :: h) :: t

/-- Split at the first occurrence of `sep` only: Python `s.split(sep, 1)`
when `sep` occurs (`none` when it does not). -/
def splitFirstChar (sep : Char) : List Char → Option (List Char × List Char)
  | [] => none
  | c :: rest =>
    if c = sep then some ([], rest)
    else
      match splitFirstChar sep rest with
      | some (k, v) => some (c :: k, v)
      | none => none

/-- Python `s.strip()`: remove leading/trailing whitespace. -/
def trimChars (l : List Char) : List Char :=
  ((l.dropWhile Char.isWhitespace).reverse.dropWhile Char.isWhitespace).reverse

/-- Python `s.strip('"\'')`: remove any leading/trailing quote characters. -/
def stripQuotes (l : List Char) : List Char :=
  let q : Char → Bool := fun c => c = '"' || c = '\''
  ((l.dropWhile q).reverse.dropWhile q).reverse

/-- Python `s.split()` (no argument): split on whitespace runs, no empties. -/
def pySplitWs (l : List Char) : List (List Char) :=
  (splitOnChar ' ' (l.map (fun c => if c.isWhitespace then ' ' else c))).filter
    (fun t => t ≠ [])

/-- `WWW-Authenticate` fields accumulated by `check_x402_url` (lines 79-98):
initial defaults `token='USDC'`, `realm='Access to resource'`. -/
structure ParsedHeader where
  amount : String
  token : String
  receiver : String
  realm : String
deriving DecidableEq, Repr

/-- One comma-separated item of the `WWW-Authenticate` header: Python
`if '=' in part: key, val = part.strip().split('=', 1); val = val.strip('"\'')`
(payment_agent.py lines 88-98). Parts without `=` are skipped. -/
def wwwAuthStep (acc : ParsedHeader) (part : List Char) : ParsedHeader :=
  let part := trimChars part
  match splitFirstChar '=' part with
  | none => acc
  | some (key, v) =>
    let val := String.mk (stripQuotes v)
    if key = "amount".toList then { acc with amount := val }
    else if key = "token".toList then { acc with token := val }
    else if key = "receiver".toList then { acc with receiver := val }
    else if key = "realm".toList then { acc with realm := val }
    else acc

/-- Parse of the primary `WWW-Authenticate` header (payment_agent.py lines
84-98): `if www_auth.lower().startswith('x402'): parts = www_auth[5:].split(',')`. -/
def parse_www_auth (www_auth : String) : ParsedHeader :=
  let init : ParsedHeader :=
    { amount := "", token := "USDC", receiver := "", realm := "Access to resource" }
  let cs := www_auth.toList
  if (cs.map Char.toLower).take 4 = "x402".toList then
    (splitOnChar ',' (cs.drop 5)).foldl wwwAuthStep init
  else init

/-- Secondary `Payment-Amount` header (payment_agent.py lines 100-108):
`for p in payment_amount.split(): if '=' in p: k, v = p.split('=')`.
`p.split('=')` has no maxsplit, so a token with more than one `=` raises
`ValueError: too many values to unpack` (caught by the function's outer
`try`). Note the assignments overwrite `amount`/`token` unconditionally. -/
def parse_payment_amount (hdr : String) (amount token : String) :
    Except String (String × String) :=
  if hdr = "" then .ok (amount, token)
  else
    (pySplitWs hdr.toList).foldlM (fun (acc : String × String) p =>
      match splitOnChar '=' p with
      | [_] => .ok acc
      | [k, v] =>
        .ok (if k = "amount".toList then (String.mk v, acc.2)
             else if k = "currency".toList then (acc.1, String.mk v)
             else acc)
      | _ => .error "ValueError: too many values to unpack (expected 2)")
      (amount, token)

/-- Is `c` one of the delimiters of the `address=` pattern `[^;,\s]`. -/
def addrDelim (c : Char) : Bool :=
  c = ';' || c = ',' || c.isWhitespace

/-- `re.search(r'address=([^;,\s]+)', s)`: first position where the literal
`address=` is followed by at least one non-delimiter character; the capture
is the maximal run of non-delimiter characters. -/
def searchAddress : List Char → Option (List Char)
  | [] => none
  | c :: rest =>
    if (c :: rest).take 8 = "address=".toList then
      let run := ((c :: rest).drop 8).takeWhile (fun d => !(addrDelim d))
      if run ≠ [] then some run else searchAddress rest
    else searchAddress rest

/-- Third header scan (payment_agent.py lines 110-114): when the
`Accept-Payment` header is non-empty and the pattern matches, the match
overwrites `receiver` unconditionally. -/
def parse_accept_payment (hdr receiver : String) : String :=
  if hdr = "" then receiver
  else
    match searchAddress hdr.toList with
    | some run => String.mk run
    | none => receiver

/-- JSON body fallback (payment_agent.py lines 116-124): entered only when
`amount` or `receiver` is still empty; `x or y` fills only falsy fields.
The body is `none` when `response.json()` raises (swallowed by
`except: pass`); JSON values are modelled as strings. -/
def json_fallback (body : Option (List (String × String)))
    (amount receiver token : String) : String × String × String :=
  if amount = "" ∨ receiver = "" then
    match body with
    | none => (amount, receiver, token)
    | some data =>
      let get := fun (k : String) (d : String) =>
        (data.lookup k).getD d
      let amount := if amount ≠ "" then amount else get "amount" ""
      let receiver :=
        if receiver ≠ "" then receiver else get "receiver" (get "address" "")
      let token := if token ≠ "" then token else get "token" "USDC"
      (amount, receiver, token)
  else (amount, receiver, token)

/-- The normalized payment demand (`PaymentRequest` TypedDict). -/
structure PaymentRequest where
  url : String
  amount : String
  token : String
  receiver : String
  realm : String
deriving DecidableEq, Repr

/-- Result dictionary of `check_x402_url`. -/
structure CheckResult where
  requires_payment : Bool
  payment_request : Option PaymentRequest
  content : Option String
  error : Option String
deriving DecidableEq, Repr

/-- An HTTP response as consumed by `check_x402_url`: status code, the three
headers (absent header = `''`, matching `headers.get(k, '')`), the JSON body
(`none` when the body is not a JSON object) and the raw text. -/
structure Response where
  status : Nat
  www_auth : String
  accept_payment : String
  payment_amount : String
  body : Option (List (String × String))
  text : String

/-- `check_x402_url` (payment_agent.py lines 66-159), as a pure function of
the already-fetched response. The function's outer `try` catches every
exception, returning `{'requires_payment': False, 'error': str(e)}`; network
failures before a response exists are outside this model. -/
def check_x402_url (url : String) (r : Response) : CheckResult :=
  if r.status = 402 then
    let h := parse_www_auth r.www_auth
    match parse_payment_amount r.payment_amount h.amount h.token with
    | .error e =>
      { requires_payment := false, payment_request := none,
        content := none, error := some e }
    | .ok (amount, token) =>
      let receiver := parse_accept_payment r.accept_payment h.receiver
      let (amount, receiver, token) := json_fallback r.body amount receiver token
      if amount ≠ "" ∧ receiver ≠ "" then
        { requires_payment := true,
          payment_request := some
            { url := url, amount := amount, token := token,
              receiver := receiver, realm := h.realm },
          content := none, error := none }
      else
        { requires_payment := true, payment_request := none, content := none,
          error := some "Could not parse payment details from 402 response" }
  else if r.status = 200 then
    { requires_payment := false, payment_request := none,
      content := some (String.mk (r.text.toList.take 5000)), error := none }
  else
    { requires_payment := false, payment_request := none, content := none,
      error := some ("Request failed with status " ++ toString r.status) }

/-- 402 response whose primary header sets `amount=10` and whose secondary
`Payment-Amount` header carries `amount=5`. -/
def respC1 : Response :=
  { status := 402, www_auth := "x402 amount=10, receiver=0xabc",
    accept_payment := "", payment_amount := "amount=5",
    body := none, text := "" }

/-- C1 counterexample: on `respC1` the primary `WWW-Authenticate` header
populates `amount = "10"`, yet the final parsed demand has `amount = "5"`:
the secondary header overwrote a field that was already filled, refuting
"the secondary space-separated key=value header fills amount/token only if
they are still unset". -/
theorem C1_counterexample :
    (parse_www_auth respC1.www_auth).amount = "10" ∧
    ((check_x402_url "http://x" respC1).payment_request).map
      PaymentRequest.amount = some "5" ∧
    ("5" : String) ≠ "10" := by
  refine ⟨by decide, by decide, by decide⟩

/-- C1 amended: the parsing sources are applied in the stated precedence
order, but the secondary `Payment-Amount` header overwrites `amount`
(and `currency` overwrites the token) even when already set, and the
`Accept-Payment` `address=` pattern overwrites `receiver` even when already
set; only the JSON-body source fills exclusively fields that are still
empty. Stated with the prior field values universally quantified: the
secondary sources ignore them, the body source preserves them when
non-empty. -/
theorem C1_amended :
    (∀ a t : String, parse_payment_amount "amount=0.25" a t = .ok ("0.25", t)) ∧
    (∀ a t : String,
      parse_payment_amount "amount=0.25 currency=DAI" a t = .ok ("0.25", "DAI")) ∧
    (∀ rcv : String, parse_accept_payment "fee=1;address=0xNew" rcv = "0xNew") ∧
    (∀ b a rc t, a ≠ "" → (json_fallback b a rc t).1 = a) ∧
    (∀ b a rc t, rc ≠ "" → (json_fallback b a rc t).2.1 = rc) := by
  refine ⟨fun a t => rfl, fun a t => rfl, fun rcv => rfl, ?_, ?_⟩
  · intro b a rc t ha
    unfold json_fallback
    by_cases hrc : rc = ""
    · simp [ha, hrc]
      cases b with
      | none => simp
      | some data => simp [ha]
    · simp [ha, hrc]
  · intro b a rc t hrc
    unfold json_fallback
    by_cases ha : a = ""
    · simp [ha, hrc]
      cases b with
      | none => simp
      | some data => simp [hrc]
    · simp [ha, hrc]

/-- Witness for `C1_amended` at concrete prior values. -/
theorem C1_amended_witness :
    parse_payment_amount "amount=0.25" "10" "USDC" = .ok ("0.25", "USDC") ∧
    parse_accept_payment "fee=1;address=0xNew" "0xOld" = "0xNew" ∧
    (json_fallback none "10" "0xOld" "USDC").1 = "10" := by
  refine ⟨C1_amended.1 "10" "USDC", C1_amended.2.2.1 "0xOld",
    C1_amended.2.2.2.1 none "10" "0xOld" "USDC" (by decide)⟩

/-- Payment leg of a batch: a raw `{recipient, amount, token}` dict coming
from the API layer; `amount` and `token` are read with `dict.get` and may be
absent. -/
structure Leg where
  recipient : String
  amount : Option String
  token : Option String
deriving DecidableEq, Repr

/-- Structured content of a message log entry. JSON-encoded `system`
messages (the execution intents) are modelled by their payload. -/
inductive MsgContent where
  /-- A plain text (assistant) message. -/
  | text (s : String)
  /-- `{'action': 'EXECUTE_PAYMENT', 'payment': payment}` of the single agent. -/
  | executeSingle (payment : PaymentRequest)
  /-- `{'action': 'EXECUTE_PAYMENT', 'index': i, 'payment': payment}` of the
  batch agent. -/
  | executeBatchLeg (index : Nat) (payment : Leg)
  /-- `{'action': 'EXECUTE_SCHEDULED_PAYMENT', ...}` of the scheduler. -/
  | executeScheduled (payment_id recipient amount token : String)
deriving DecidableEq, Repr

/-- One entry of a message log: `{'role': ..., 'content': ...}`. -/
structure Msg where
  role : String
  content : MsgContent
deriving DecidableEq, Repr

/-- One entry of the negotiation history (payment_agent.py lines 224-228). -/
structure NegRecord where
  timestamp : Int
  original_amount : String
  agent_response : String
deriving DecidableEq, Repr

/-- The single-payment session state (`AgentState` TypedDict). -/
structure AgentState where
  session_id : String
  user_address : String
  task_type : String
  target_url : String
  requires_payment : Bool
  payment_request : Option PaymentRequest
  content : Option String
  negotiation_history : List NegRecord
  proposed_amount : Option String
  counter_offer : Option String
  user_approved : Bool
  tx_hash : Option String
  status : String
  error : Option String
  messages : List Msg
deriving DecidableEq, Repr

/-- `check_url_node` (payment_agent.py lines 164-188), with the fetched
response passed in place of the network call. In the payment-required branch
the demand is present whenever `check_x402_url` reports no error, so the
`none` sub-case below is unreachable for its outputs. -/
def check_url_node (s : AgentState) (r : Response) : AgentState :=
  let result := check_x402_url s.target_url r
  let s := { s with requires_payment := result.requires_payment,
                    payment_request := result.payment_request,
                    content := result.content }
  if pyTruthyOpt result.error then
    { s with error := result.error, status := "failed" }
  else if s.requires_payment then
    { s with status := "awaiting_approval",
             messages := s.messages ++
               [⟨"assistant",
                 .text (match s.payment_request with
                   | some p =>
                     "This URL requires payment: " ++ p.amount ++ " " ++
                       p.token ++ " to access '" ++ p.realm ++ "'."
                   | none => "")⟩] }
  else
    { s with status := "completed",
             messages := s.messages ++
               [⟨"assistant",
                 .text "This URL is freely accessible. No payment required."⟩] }

/-- `negotiate_node` (payment_agent.py lines 191-238); the LLM advisory text
is the injected `adv`, the wall-clock timestamp is `t`. -/
def negotiate_node (s : AgentState) (adv : String) (t : Int) : AgentState :=
  match s.payment_request with
  | none => { s with error := some "No payment request to negotiate",
                     status := "failed" }
  | some p =>
    { s with
      negotiation_history := s.negotiation_history ++
        [⟨t, p.amount, adv⟩],
      messages := s.messages ++
        [⟨"assistant", .text ("Negotiation analysis: " ++ adv)⟩],
      status := "awaiting_approval" }

/-- `execute_payment_node` (payment_agent.py lines 241-270). -/
def execute_payment_node (s : AgentState) : AgentState :=
  if !s.user_approved then
    { s with error := some "User approval required before execution",
             status := "awaiting_approval" }
  else
    match s.payment_request with
    | none => { s with error := some "No payment request to execute",
                       status := "failed" }
    | some p =>
      { s with status := "executing",
               messages := s.messages ++
                 [⟨"assistant",
                   .text ("Executing payment of " ++ p.amount ++ " " ++
                     p.token ++ " to " ++
                     String.mk (p.receiver.toList.take 10) ++ "...")⟩,
                  ⟨"system", .executeSingle p⟩] }

/-- `complete_node` (payment_agent.py lines 273-284). -/
def complete_node (s : AgentState) : AgentState :=
  let s := if s.status ≠ "failed" then { s with status := "completed" } else s
  match s.tx_hash with
  | some h =>
    if h ≠ "" then
      { s with messages := s.messages ++
          [⟨"assistant",
            .text ("Payment completed! Transaction hash: " ++ h)⟩] }
    else s
  | none => s

/-- `should_negotiate` conditional edge (payment_agent.py lines 289-301). -/
def should_negotiate (s : AgentState) : String :=
  if pyTruthyOpt s.error then "complete"
  else if !s.requires_payment then "complete"
  else if s.task_type = "negotiate" ∧ s.negotiation_history = [] then "negotiate"
  else "await_approval"

/-- `PaymentAgentRunner.start_session` (payment_agent.py lines 360-396): the
initial state, the `check_url` entry node, then the `should_negotiate`
conditional edge (`negotiate → END`, `await_approval → END`,
`complete → complete_node → END`). `r` is the response the injected HTTP
client returns for `target_url`, `adv` the advisory text, `t` the clock. -/
def initial_state (sid payer url task : String) : AgentState :=
  { session_id := sid, user_address := payer, task_type := task,
    target_url := url, requires_payment := false, payment_request := none,
    content := none, negotiation_history := [], proposed_amount := none,
    counter_offer := none, user_approved := false, tx_hash := none,
    status := "checking", error := none,
    messages := [⟨"assistant",
      .text ("Starting analysis of " ++ url ++ "...")⟩] }

def start_session (sid payer url task : String) (r : Response) (adv : String)
    (t : Int) : AgentState :=
  let s1 := check_url_node (initial_state sid payer url task) r
  if should_negotiate s1 = "negotiate" then negotiate_node s1 adv t
  else if should_negotiate s1 = "complete" then complete_node s1
  else s1

/-- The two in-place assignments of `PaymentAgentRunner.approve_payment`
(payment_agent.py lines 403-405) before the graph is resumed. -/
def approve_flags (s : AgentState) : AgentState :=
  { s with user_approved := true, status := "executing" }

/-- `PaymentAgentRunner.approve_payment` (payment_agent.py lines 398-413):
set the approval flag and status, then resume the graph at the `execute`
node, whose outgoing edge runs `complete_node`. -/
def approve_payment (s : AgentState) : AgentState :=
  complete_node (execute_payment_node (approve_flags s))

/-- `PaymentAgentRunner.confirm_transaction` (payment_agent.py lines
415-429): unconditionally record the settlement reference and set the
status to `completed`. -/
def confirm_transaction (s : AgentState) (tx : String) : AgentState :=
  { s with tx_hash := some tx, status := "completed",
           messages := s.messages ++
             [⟨"assistant",
               .text ("Payment confirmed! Transaction: " ++ tx)⟩] }

/-- The session snapshots observable in the registry: the state after
`start_session` and after each subsequent node transition or runner call
(every node transition mutates the stored session dict in place, so the
state is observable at every node boundary). -/
inductive Reachable : AgentState → Prop
  | start (sid payer url task : String) (r : Response) (adv : String) (t : Int) :
      Reachable (start_session sid payer url task r adv t)
  | approve (s : AgentState) : Reachable s → Reachable (approve_flags s)
  | exec (s : AgentState) : Reachable s → Reachable (execute_payment_node s)
  | complete (s : AgentState) : Reachable s → Reachable (complete_node s)
  | confirm (s : AgentState) (tx : String) :
      Reachable s → Reachable (confirm_transaction s tx)

lemma check_url_node_status (s : AgentState) (r : Response) :
    (check_url_node s r).status = "failed" ∨
    (check_url_node s r).status = "awaiting_approval" ∨
    (check_url_node s r).status = "completed" := by
  unfold check_url_node
  by_cases h : pyTruthyOpt (check_x402_url s.target_url r).error = true
  · simp [h]
  · by_cases h2 : (check_x402_url s.target_url r).requires_payment = true
    · simp [h, h2]
    · simp [h, h2]

lemma negotiate_node_status (s : AgentState) (adv : String) (t : Int) :
    (negotiate_node s adv t).status = "failed" ∨
    (negotiate_node s adv t).status = "awaiting_approval" := by
  unfold negotiate_node
  cases s.payment_request with
  | none => simp
  | some p => simp

lemma complete_node_status (s : AgentState) :
    (complete_node s).status = "completed" ∨ (complete_node s).status = "failed" := by
  unfold complete_node
  by_cases h : s.status = "failed" <;>
    cases htx : s.tx_hash with
    | none => simp [h, htx]
    | some v => by_cases hv : v = "" <;> simp [h, htx, hv]

lemma complete_node_approved (s : AgentState) :
    (complete_node s).user_approved = s.user_approved := by
  unfold complete_node
  by_cases h : s.status = "failed" <;>
    cases htx : s.tx_hash with
    | none => simp [h, htx]
    | some v => by_cases hv : v = "" <;> simp [h, htx, hv]

lemma start_session_status (sid payer url task : String) (r : Response)
    (adv : String) (t : Int) :
    (start_session sid payer url task r adv t).status ≠ "executing" := by
  unfold start_session
  set s1 := check_url_node (initial_state sid payer url task) r with hs1
  by_cases hn : should_negotiate s1 = "negotiate"
  · simp only [hn, if_true]
    rcases negotiate_node_status s1 adv t with h | h <;> simp [h]
  · by_cases hc : should_negotiate s1 = "complete"
    · simp only [hn, hc, if_false, if_true]
      rcases complete_node_status s1 with h | h <;> simp [h]
    · simp only [hn, hc, if_false]
      rcases check_url_node_status (initial_state sid payer url task) r
          with h | h | h <;>
        rw [← hs1] at h <;> simp [h]

lemma execute_payment_node_inv (s : AgentState) :
    (execute_payment_node s).status = "executing" →
    (execute_payment_node s).user_approved = true := by
  unfold execute_payment_node
  by_cases h : s.user_approved = true
  · cases hp : s.payment_request with
    | none => simp [h, hp]
    | some p => simp [h, hp]
  · simp at h
    simp [h]

/-- A 402 response with a well-formed primary header, used to reach an
`awaiting_approval` session. -/
def resp402std : Response :=
  { status := 402, www_auth := "x402 amount=1.5, receiver=0xBob",
    accept_payment := "", payment_amount := "", body := none, text := "" }

/-- A free 200 response. -/
def resp200std : Response :=
  { status := 200, www_auth := "", accept_payment := "",
    payment_amount := "", body := none, text := "hello" }

/-- C6 amended: the first half of the invariant holds at every reachable
session snapshot: `status == "executing"` implies the approval flag is set.
(The second half is refuted by `C6_counterexample`: `confirm` records a
non-empty settlement reference and `completed` status on sessions that never
required payment.) -/
theorem C6_amended (s : AgentState) (h : Reachable s)
    (hs : s.status = "executing") : s.user_approved = true := by
  induction h with
  | start sid payer url task r adv t =>
    exact absurd hs (start_session_status sid payer url task r adv t)
  | approve s' _ _ => rfl
  | exec s' _ _ => exact execute_payment_node_inv s' hs
  | complete s' _ _ =>
    rcases complete_node_status s' with h1 | h1 <;> rw [h1] at hs <;> simp at hs
  | confirm s' tx _ _ => simp [confirm_transaction] at hs

/-- Witness for `C6_amended`: a reachable snapshot with status `executing`
(the in-place assignments of `approve_payment` on a 402 session). -/
theorem C6_amended_witness :
    (approve_flags
      (start_session "w6" "0xU" "http://x" "check_url" resp402std "" 0)).user_approved
      = true :=
  C6_amended _
    (Reachable.approve _ (Reachable.start "w6" "0xU" "http://x" "check_url" resp402std "" 0))
    rfl

/-- C6 counterexample: a session started on a freely accessible URL
(`requires_payment = false`, status `completed`) and then confirmed carries a
non-empty settlement reference with `requires_payment` still `false` — a
reachable state violating "`status == completed` with a non-empty settlement
reference implies the session had `requires_payment == true`". -/
theorem C6_counterexample :
    Reachable (confirm_transaction
      (start_session "c6" "0xU" "http://free" "check_url" resp200std "" 0) "0xabc") ∧
    (confirm_transaction
      (start_session "c6" "0xU" "http://free" "check_url" resp200std "" 0) "0xabc").status
      = "completed" ∧
    (confirm_transaction
      (start_session "c6" "0xU" "http://free" "check_url" resp200std "" 0) "0xabc").tx_hash
      = some "0xabc" ∧
    ("0xabc" : String) ≠ "" ∧
    (confirm_transaction
      (start_session "c6" "0xU" "http://free" "check_url" resp200std "" 0) "0xabc").requires_payment
      = false := by
  refine ⟨Reachable.confirm _ "0xabc"
    (Reachable.start "c6" "0xU" "http://free" "check_url" resp200std "" 0),
    rfl, rfl, by decide, by decide⟩

/-- C2 counterexample: a reachable session in `awaiting_approval` with the
approval flag unset; calling `confirm` moves its status to `completed`,
refuting "confirm ... leaves the session status in awaiting_approval". -/
theorem C2_counterexample :
    (start_session "c2" "0xU" "http://paid" "check_url" resp402std "" 0).status
      = "awaiting_approval" ∧
    (start_session "c2" "0xU" "http://paid" "check_url" resp402std "" 0).user_approved
      = false ∧
    (confirm_transaction
      (start_session "c2" "0xU" "http://paid" "check_url" resp402std "" 0) "0xdead").status
      = "completed" ∧
    ("completed" : String) ≠ "awaiting_approval" := by
  refine ⟨by decide, by decide, rfl, by decide⟩

/-- C2 amended: on an `awaiting_approval` session with the approval flag
unset, `confirm` sets the status to `completed` (never `executing`), while
attempting execution (the `execute` node) reports an error and leaves the
status in `awaiting_approval`. -/
theorem C2_amended (s : AgentState) (tx : String)
    (h1 : s.status = "awaiting_approval") (h2 : s.user_approved = false) :
    (confirm_transaction s tx).status = "completed" ∧
    (confirm_transaction s tx).status ≠ "executing" ∧
    (execute_payment_node s).status = "awaiting_approval" ∧
    (execute_payment_node s).error
      = some "User approval required before execution" := by
  refine ⟨rfl, by simp [confirm_transaction], ?_, ?_⟩ <;>
    simp [execute_payment_node, h2]

/-- Witness for `C2_amended` at a concrete reachable session. -/
theorem C2_amended_witness :
    (confirm_transaction
      (start_session "w2" "0xU" "http://paid" "check_url" resp402std "" 0) "0xh").status
      = "completed" ∧
    (confirm_transaction
      (start_session "w2" "0xU" "http://paid" "check_url" resp402std "" 0) "0xh").status
      ≠ "executing" ∧
    (execute_payment_node
      (start_session "w2" "0xU" "http://paid" "check_url" resp402std "" 0)).status
      = "awaiting_approval" ∧
    (execute_payment_node
      (start_session "w2" "0xU" "http://paid" "check_url" resp402std "" 0)).error
      = some "User approval required before execution" :=
  C2_amended _ "0xh" (by decide) (by decide)

/-- Decimal digit run to a natural number. -/
def digitsToNat (l : List Char) : Nat :=
  l.foldl (fun n c => 10 * n + (c.toNat - 48)) 0

/-- An exact fraction (not normalized, denominator positive by
construction): the stand-in for a Python float value. The program computes
with IEEE-754 doubles, whose addition rounds and is not associative; this
model is exact, so no theorem below relies on algebraic properties of this
arithmetic (exactness of sums, associativity, or reordering). Totals
statements only describe which amounts are combined and in which order —
a shape that holds verbatim with double arithmetic substituted — and
concrete evaluations use only small integer amounts, on which double and
exact arithmetic agree digit for digit. -/
structure Frac where
  num : Int
  den : Nat
deriving DecidableEq, Repr

/-- Fraction addition without normalization (the stand-in for the `+` of
`totals.get(token, 0) + amount`; see the caveat on `Frac`). -/
def Frac.add (a b : Frac) : Frac :=
  ⟨a.num * b.den + b.num * a.den, a.den * b.den⟩

instance : Zero Frac := ⟨⟨0, 1⟩⟩

instance : Add Frac := ⟨Frac.add⟩

/-- Python `float(s)` on a plain decimal literal (optional sign, optional
single point); `none` is a `ValueError`. The program rounds the literal to
the nearest double (and `float()` also accepts exponent/`inf`/`nan` forms);
this model parses the decimal exactly, which is adequate for the two uses
made of it: the `ValueError` path on non-numeric strings, and concrete
evaluations on small integer literals that doubles represent exactly. -/
def parse_float (s : String) : Option Frac :=
  let cs := trimChars s.toList
  let sign : Int × List Char :=
    match cs with
    | '-' :: rest => (-1, rest)
    | '+' :: rest => (1, rest)
    | _ => (1, cs)
  match splitOnChar '.' sign.2 with
  | [ip] =>
    if ip ≠ [] ∧ ip.all Char.isDigit then
      some ⟨sign.1 * digitsToNat ip, 1⟩
    else none
  | [ip, fp] =>
    if (ip ≠ [] ∨ fp ≠ []) ∧ ip.all Char.isDigit ∧ fp.all Char.isDigit then
      some ⟨sign.1 * (digitsToNat ip * 10 ^ fp.length + digitsToNat fp),
        10 ^ fp.length⟩
    else none
  | _ => none

/-- Decimal rendering of a natural number. -/
def natChars : Nat → Nat → List Char
  | 0, _ => []
  | fuel + 1, n =>
    if n < 10 then [Char.ofNat (48 + n)]
    else natChars fuel (n / 10) ++ [Char.ofNat (48 + n % 10)]

/-- `str(n)` for a natural number. -/
def natStr (n : Nat) : String := String.mk (natChars (n + 1) n)

/-- Round a fraction to the nearest integer, ties to even (the rounding of
`%.2f` applied to the scaled value): with `q = n / d`, floor `fl` and
remainder `r`, the fractional part compares to `1/2` as `2r` to `d`. -/
def roundHalfEven (f : Frac) : Int :=
  let fl := f.num.fdiv (f.den : Int)
  let r := f.num - fl * (f.den : Int)
  if 2 * r < (f.den : Int) then fl
  else if (f.den : Int) < 2 * r then fl + 1
  else if fl % 2 = 0 then fl else fl + 1

/-- Cents count rendered as `d.dd`. -/
def centsStr (n : Nat) : String :=
  natStr (n / 100) ++ "." ++
    (if n % 100 < 10 then "0" ++ natStr (n % 100) else natStr (n % 100))

/-- Python `f"{q:.2f}"`: two-decimal fixed-point rendering. -/
def format2 (q : Frac) : String :=
  let c := roundHalfEven ⟨q.num * 100, q.den⟩
  if c < 0 then "-" ++ centsStr c.natAbs else centsStr c.toNat

/-- Python `sep.join(l)`. -/
def joinSep (sep : String) : List String → String
  | [] => ""
  | [x] => x
  | x :: xs => x ++ sep ++ joinSep sep xs

/-- Lookup in an insertion-ordered dict (modelled as an association list). -/
def alistLookup : List (String × Frac) → String → Option Frac
  | [], _ => none
  | (k', v) :: rest, k => if k' = k then some v else alistLookup rest k

/-- `d[k] = v` on an insertion-ordered dict: update in place, or append for a new key. -/
def dictSetQ : List (String × Frac) → String → Frac → List (String × Frac)
  | [], k, v => [(k, v)]
  | (k', v') :: rest, k, v =>
    if k' = k then (k', v) :: rest else (k', v') :: dictSetQ rest k v

/-- `d.get(k, q)`. -/
def dictGetQ (l : List (String × Frac)) (k : String) (q : Frac) : Frac :=
  (alistLookup l k).getD q

/-- `float(payment.get('amount', 0))` for one leg (`none` = `ValueError`). -/
def legFloat (p : Leg) : Option Frac :=
  match p.amount with
  | none => some 0
  | some s => parse_float s

/-- `payment.get('token', 'USDC')` for one leg. -/
def legToken (p : Leg) : String := p.token.getD "USDC"

/-- A record of `completed_payments`: `{**payment, 'status': ...,
'timestamp': ...}` plus the `tx_hash` added on confirmation. In Python a
failed record appended to `failed_payments` is the same dict object that
stays in `completed_payments`; here records are compared by value. -/
structure PayRecord where
  recipient : String
  amount : Option String
  token : Option String
  status : String
  timestamp : Int
  tx_hash : Option String
deriving DecidableEq, Repr

/-- The batch-session state (`MultiPaymentState` TypedDict). -/
structure MultiPaymentState where
  session_id : String
  user_address : String
  payments : List Leg
  current_index : Nat
  completed_payments : List PayRecord
  failed_payments : List PayRecord
  status : String
  requires_approval : Bool
  total_amount : String
  messages : List Msg
  error : Option String
deriving DecidableEq, Repr

/-- The totals loop of `prepare_batch_node` (multi_payment_agent.py lines
89-93): `totals[token] = totals.get(token, 0) + float(payment.get('amount', 0))`;
a non-numeric amount string raises `ValueError` out of the node. -/
def computeTotals : List Leg → List (String × Frac) → Except String (List (String × Frac))
  | [], totals => .ok totals
  | p :: rest, totals =>
    match legFloat p with
    | none => .error "ValueError: could not convert string to float"
    | some a =>
      computeTotals rest
        (dictSetQ totals (legToken p) (dictGetQ totals (legToken p) 0 + a))

/-- `prepare_batch_node` (multi_payment_agent.py lines 81-105). -/
def prepare_batch_node (s : MultiPaymentState) : Except String MultiPaymentState :=
  if s.payments = [] then
    .ok { s with error := some "No payments provided", status := "failed" }
  else
    match computeTotals s.payments [] with
    | .error e => .error e
    | .ok totals =>
      let total_str :=
        joinSep ", " (totals.map (fun kv => format2 kv.2 ++ " " ++ kv.1))
      .ok { s with
        total_amount := total_str, status := "awaiting_approval",
        requires_approval := true,
        messages := s.messages ++
          [⟨"assistant",
            .text ("Prepared " ++ natStr s.payments.length ++
              " payments totaling " ++ total_str ++ ". Awaiting approval.")⟩] }

/-- Initial state of `MultiPaymentRunner.start_batch` (lines 309-321). -/
def batch_initial (sid payer : String) (payments : List Leg) : MultiPaymentState :=
  { session_id := sid, user_address := payer, payments := payments,
    current_index := 0, completed_payments := [], failed_payments := [],
    status := "pending", requires_approval := false, total_amount := "",
    messages := [⟨"assistant", .text "Preparing batch payments..."⟩],
    error := none }

/-- `MultiPaymentRunner.start_batch` (lines 302-327): initial state, then the
graph's `prepare` entry node (`prepare → END`). -/
def start_batch (sid payer : String) (payments : List Leg) :
    Except String MultiPaymentState :=
  prepare_batch_node (batch_initial sid payer payments)

/-- Fresh `completed_payments` record of `execute_batch_node` (lines 127-132). -/
def mkPending (p : Leg) (now : Int) : PayRecord :=
  { recipient := p.recipient, amount := p.amount, token := p.token,
    status := "pending_confirmation", timestamp := now, tx_hash := none }

/-- The leg loop of `execute_batch_node` (lines 112-132):
`for i, payment in enumerate(state['payments'])`, emitting the intent
message and appending the `pending_confirmation` record for each leg. -/
def exec_legs (now : Int) : List Leg → Nat → MultiPaymentState → MultiPaymentState
  | [], _, s => s
  | p :: rest, i, s =>
    exec_legs now rest (i + 1)
      { s with current_index := i,
               messages := s.messages ++ [⟨"system", .executeBatchLeg i p⟩],
               completed_payments := s.completed_payments ++ [mkPending p now] }

/-- `execute_batch_node` (lines 108-135). -/
def execute_batch_node (s : MultiPaymentState) (now : Int) : MultiPaymentState :=
  let s := exec_legs now s.payments 0 { s with status := "processing" }
  { s with status := "awaiting_approval" }

/-- `MultiPaymentRunner.approve_and_execute` (lines 329-340). -/
def approve_and_execute (s : MultiPaymentState) (now : Int) : MultiPaymentState :=
  execute_batch_node { s with requires_approval := false } now

/-- Terminal per-leg status check of `confirm_payment` (lines 365-368). -/
def terminalB (p : PayRecord) : Bool :=
  p.status == "confirmed" || p.status == "failed"

/-- `complete_batch_node` (lines 138-156). -/
def complete_batch_node (s : MultiPaymentState) : MultiPaymentState :=
  let successful := (s.completed_payments.filter
    (fun p => p.status == "confirmed")).length
  let failed := s.failed_payments.length
  if 0 < failed then
    { s with status := "completed",
             messages := s.messages ++
               [⟨"assistant",
                 .text ("Batch complete: " ++ natStr successful ++
                   " succeeded, " ++ natStr failed ++ " failed.")⟩] }
  else
    { s with status := "completed",
             messages := s.messages ++
               [⟨"assistant",
                 .text ("All " ++ natStr successful ++
                   " payments completed successfully!")⟩] }

/-- Python list indexing: non-negative indices address from the front,
negative ones from the back, `IndexError` past either end. -/
def pyListIdx (len : Nat) (idx : Int) : Option Nat :=
  if 0 ≤ idx then some idx.toNat
  else if 0 ≤ (len : Int) + idx then some ((len : Int) + idx).toNat
  else none

/-- `MultiPaymentRunner.confirm_payment` (lines 342-375). The guard is
`payment_index < len(completed_payments)` on Python ints, so negative
indices pass it and address records from the back; after the optional
per-leg update the `all_confirmed` check runs unconditionally and, when
every recorded entry is terminal (vacuously so for an empty list),
`complete_batch_node` finalizes the session. -/
def confirm_payment (s : MultiPaymentState) (payment_index : Int) (tx : String)
    (success : Bool) : Except String MultiPaymentState :=
  let finalize : MultiPaymentState → MultiPaymentState := fun st =>
    if st.completed_payments.all terminalB then complete_batch_node st else st
  if payment_index < (s.completed_payments.length : Int) then
    match pyListIdx s.completed_payments.length payment_index with
    | none => .error "IndexError: list index out of range"
    | some j =>
      match s.completed_payments[j]? with
      | none => .error "IndexError: list index out of range"
      | some payment =>
        let s :=
          if success then
            let upd := { payment with status := "confirmed", tx_hash := some tx }
            { s with completed_payments := s.completed_payments.set j upd }
          else
            let upd := { payment with status := "failed" }
            { s with completed_payments := s.completed_payments.set j upd,
                     failed_payments := s.failed_payments ++ [upd] }
        .ok (finalize s)
  else .ok (finalize s)

/-- The error, if any, of a fallible transition. -/
def exceptError {α : Type} : Except String α → Option String
  | .error e => some e
  | .ok _ => none

lemma complete_batch_node_frame (s : MultiPaymentState) :
    (complete_batch_node s).completed_payments = s.completed_payments ∧
    (complete_batch_node s).failed_payments = s.failed_payments ∧
    (complete_batch_node s).payments = s.payments ∧
    (complete_batch_node s).status = "completed" := by
  unfold complete_batch_node
  by_cases h : 0 < s.failed_payments.length <;> simp [h]

/-- The batch leg used in concrete executions. -/
def legStd : Leg := ⟨"0xAlice", some "10", some "USDC"⟩

/-- The failed record produced from `legStd` at time 7. -/
def recC3 : PayRecord :=
  { recipient := "0xAlice", amount := some "10", token := some "USDC",
    status := "failed", timestamp := 7, tx_hash := none }

/-- C3 counterexample: start a one-leg batch, approve and execute it, then
confirm leg 0 with `success = false`: the resulting session holds the failed
leg record as a member of `completed_payments` *and* of `failed_payments`
(in Python even the same dict object), refuting "every payment leg appears
in exactly one of {not yet started, completed_payments, failed_payments}". -/
theorem C3_counterexample :
    (((start_batch "s3" "0xU" [legStd]).map (fun st => approve_and_execute st 7)).bind
        (fun st => confirm_payment st 0 "0xh" false)).toOption.map
      (fun st => (decide (recC3 ∈ st.completed_payments),
                  decide (recC3 ∈ st.failed_payments))) = some (true, true) := by
  decide

lemma getElem?_lt_length {α : Type} {l : List α} {j : Nat} {p : α}
    (hp : l[j]? = some p) : j < l.length := by
  by_contra hc
  push_neg at hc
  rw [List.getElem?_eq_none hc] at hp
  exact Option.noConfusion hp

lemma mem_set_self {α : Type} :
    ∀ (l : List α) (j : Nat) (a : α), j < l.length → a ∈ l.set j a
  | _ :: _, 0, a, _ => by simp
  | x :: xs, n + 1, a, h => by
    have hm := mem_set_self xs n a (by simpa using h)
    show a ∈ x :: xs.set n a
    exact List.mem_cons_of_mem x hm

/-- C3 amended: a leg confirmed as failed is recorded in *both* lists: the
record (with status `failed`) remains at its index in `completed_payments`
and a copy is appended to `failed_payments`; legs are never dropped, but the
"exactly one of" partition does not hold for failed legs. -/
theorem C3_amended (s : MultiPaymentState) (j : Nat) (tx : String) (p : PayRecord)
    (hp : s.completed_payments[j]? = some p) (s' : MultiPaymentState)
    (h : confirm_payment s (j : Int) tx false = .ok s') :
    ({ p with status := "failed" } : PayRecord) ∈ s'.completed_payments ∧
    ({ p with status := "failed" } : PayRecord) ∈ s'.failed_payments := by
  have hj : j < s.completed_payments.length := getElem?_lt_length hp
  have hjlt : (j : Int) < (s.completed_payments.length : Int) := by exact_mod_cast hj
  have hidx : pyListIdx s.completed_payments.length (j : Int) = some j := by
    simp [pyListIdx]
  unfold confirm_payment at h
  rw [if_pos hjlt, hidx] at h
  dsimp only at h
  rw [hp] at h
  simp only [Bool.false_eq_true, if_false] at h
  set upd : PayRecord := { p with status := "failed" } with hupd
  have hmem1 : upd ∈ s.completed_payments.set j upd :=
    mem_set_self _ j upd hj
  have hmem2 : upd ∈ s.failed_payments ++ [upd] := by
    simp
  by_cases hall :
      ((s.completed_payments.set j upd).all terminalB) = true
  · rw [if_pos hall] at h
    injection h with h'
    subst h'
    obtain ⟨h1, h2, _, _⟩ := complete_batch_node_frame
      { s with completed_payments := s.completed_payments.set j upd,
               failed_payments := s.failed_payments ++ [upd] }
    rw [h1, h2]
    exact ⟨hmem1, hmem2⟩
  · rw [if_neg (by simpa using hall)] at h
    injection h with h'
    subst h'
    exact ⟨hmem1, hmem2⟩

/-- The batch state reached by executing a one-leg batch. -/
def stW3 : MultiPaymentState :=
  ((start_batch "w3" "0xU" [legStd]).map
    (fun st => approve_and_execute st 7)).toOption.getD (batch_initial "x" "y" [])

/-- The batch state after confirming its only leg as failed. -/
def stW3f : MultiPaymentState :=
  (confirm_payment stW3 0 "0xh" false).toOption.getD (batch_initial "x" "y" [])

/-- Witness for `C3_amended` on the concrete one-leg batch. -/
theorem C3_amended_witness :
    ({ mkPending legStd 7 with status := "failed" } : PayRecord)
        ∈ stW3f.completed_payments ∧
    ({ mkPending legStd 7 with status := "failed" } : PayRecord)
        ∈ stW3f.failed_payments :=
  C3_amended stW3 0 "0xh" (mkPending legStd 7) (by decide) stW3f (by rfl)

lemma alistLookup_set_self (l : List (String × Frac)) (k : String) (v : Frac) :
    alistLookup (dictSetQ l k v) k = some v := by
  induction l with
  | nil => simp [dictSetQ, alistLookup]
  | cons kv rest ih =>
    by_cases h : kv.1 = k
    · simp [dictSetQ, alistLookup, h]
    · simp [dictSetQ, alistLookup, h, ih]

lemma alistLookup_set_other (l : List (String × Frac)) (k k' : String) (v : Frac)
    (h : k' ≠ k) : alistLookup (dictSetQ l k v) k' = alistLookup l k' := by
  have h' : ¬ k = k' := fun he => h he.symm
  induction l with
  | nil => simp [dictSetQ, alistLookup, h']
  | cons kv rest ih =>
    by_cases hk : kv.1 = k
    · have hkk' : ¬ kv.1 = k' := by rw [hk]; exact h'
      simp [dictSetQ, alistLookup, hk, hkk', h']
    · simp [dictSetQ, alistLookup, hk, ih]

/-- Characterization of the totals dict built by `computeTotals`, for an
arbitrary starting accumulator: the entry under `tok` is the left fold of
the code's addition over the parsed amounts of exactly the legs whose token
is `tok`, in their input order, starting from the accumulator's
`totals.get(token, 0)` value. The statement only describes which amounts
are combined and in which order, so it holds with the program's double
arithmetic in place of `Frac` addition. -/
lemma computeTotals_lookup (legs : List Leg) :
    ∀ (acc m : List (String × Frac)) (tok : String),
    computeTotals legs acc = .ok m →
    alistLookup m tok =
      if legs.filter (fun p => legToken p == tok) = [] then alistLookup acc tok
      else some ((legs.filter (fun p => legToken p == tok)).foldl
        (fun a p => a + (legFloat p).getD 0) (dictGetQ acc tok 0)) := by
  induction legs with
  | nil =>
    intro acc m tok h
    simp only [computeTotals] at h
    injection h with h'
    subst h'
    simp
  | cons p rest ih =>
    intro acc m tok h
    simp only [computeTotals] at h
    cases hf : legFloat p with
    | none => rw [hf] at h; exact absurd h (by simp)
    | some a =>
      rw [hf] at h
      have hrec := ih _ m tok h
      by_cases htk : legToken p = tok
      · subst htk
        rw [List.filter_cons_of_pos (by simp)]
        rw [hrec]
        by_cases hrest :
            rest.filter (fun q => legToken q == legToken p) = []
        · rw [if_pos hrest, if_neg (by simp)]
          rw [alistLookup_set_self]
          simp [hrest, hf]
        · rw [if_neg hrest, if_neg (by simp)]
          simp only [dictGetQ, alistLookup_set_self, Option.getD_some]
          simp [hf]
      · rw [List.filter_cons_of_neg (by simp [htk])]
        rw [hrec]
        have hne : tok ≠ legToken p := fun he => htk he.symm
        rw [alistLookup_set_other _ _ _ _ hne]
        simp only [dictGetQ, alistLookup_set_other _ _ _ _ hne]

/-- The three legs of the spec's example, and a permutation of them. -/
def legsC5 : List Leg :=
  [⟨"A", some "10", some "USDC"⟩, ⟨"B", some "5", some "USDC"⟩,
   ⟨"C", some "3", some "ETH"⟩]

/-- `legsC5` with the ETH leg first. -/
def legsC5p : List Leg :=
  [⟨"C", some "3", some "ETH"⟩, ⟨"A", some "10", some "USDC"⟩,
   ⟨"B", some "5", some "USDC"⟩]

/-- C5 counterexample: the spec's example legs produce
`"15.00 USDC, 3.00 ETH"`, but the permutation with the ETH leg first
produces `"3.00 ETH, 15.00 USDC"` — the rendered string follows the order
of first appearance of each token, so it is *not* independent of the input
order of the legs. -/
theorem C5_counterexample :
    (start_batch "s5" "0xU" legsC5).toOption.map (fun s => s.total_amount)
      = some "15.00 USDC, 3.00 ETH" ∧
    (start_batch "s5b" "0xU" legsC5p).toOption.map (fun s => s.total_amount)
      = some "3.00 ETH, 15.00 USDC" ∧
    legsC5p.Perm legsC5 ∧
    ("3.00 ETH, 15.00 USDC" : String) ≠ "15.00 USDC, 3.00 ETH" := by
  refine ⟨by decide, by decide, by decide, by decide⟩

/-- C5 amended: the totals are grouped strictly by token — the totals dict
has an entry for `tok` iff some leg carries that token, and its value is
exactly the left fold of the code's addition over that token's parsed
amounts in their input order, starting from `totals.get(token, 0) = 0`. So
amounts are never summed across different tokens and each per-token total
is built from exactly its own legs. The statement describes which amounts
are combined, in which order, with the program's own `+`; it does not
assert exactness or permutation-invariance of the float sums (false for
IEEE doubles), and the rendered string's token order follows first
appearance in the input, as `C5_counterexample` shows. -/
theorem C5_amended (legs : List Leg) (m : List (String × Frac)) (tok : String)
    (h : computeTotals legs [] = .ok m) :
    alistLookup m tok =
      if legs.filter (fun p => legToken p == tok) = [] then none
      else some ((legs.filter (fun p => legToken p == tok)).foldl
        (fun a p => a + (legFloat p).getD 0) 0) := by
  rw [computeTotals_lookup legs [] m tok h]
  by_cases he : legs.filter (fun p => legToken p == tok) = []
  · simp [he, alistLookup]
  · simp [he, dictGetQ, alistLookup]

/-- The totals dict of the example legs. -/
def mC5 : List (String × Frac) := (computeTotals legsC5 []).toOption.getD []

/-- Witness for `C5_amended` on the example legs and token `USDC`. -/
theorem C5_amended_witness :
    alistLookup mC5 "USDC" =
      if legsC5.filter (fun p => legToken p == "USDC") = [] then none
      else some ((legsC5.filter (fun p => legToken p == "USDC")).foldl
        (fun a p => a + (legFloat p).getD 0) 0) :=
  C5_amended legsC5 mC5 "USDC" (by rfl)

/-- C9 counterexample: on a freshly prepared one-leg batch (no recorded
completed legs), `confirm_payment` with the out-of-range index 5 is *not* a
no-op: the `all_confirmed` check is vacuously true over the empty
`completed_payments` list, so the session finalizes and its aggregate status
changes from `awaiting_approval` to `completed`. -/
theorem C9_counterexample :
    (start_batch "s9" "0xU" [legStd]).toOption.map (fun st => st.status)
      = some "awaiting_approval" ∧
    ((start_batch "s9" "0xU" [legStd]).bind
      (fun st => confirm_payment st 5 "0xh" true)).toOption.map
        (fun st => st.status) = some "completed" ∧
    ("completed" : String) ≠ "awaiting_approval" := by
  refine ⟨by decide, by decide, by decide⟩

/-- C9 amended: for an index at or past the end of `completed_payments` the
per-leg update is skipped — `completed_payments`, `failed_payments` and the
legs are unchanged — but the operation is not a no-op: the finalization
check still runs, so when every recorded entry is terminal (vacuously so
when none is recorded) the aggregate status flips to `completed` (only
status and the message log change). Negative indices are not covered by the
"ignored" rule at all: they address records from the back (Python list
indexing; below `-len` they raise `IndexError`). -/
theorem C9_amended (s : MultiPaymentState) (idx : Int) (tx : String)
    (success : Bool) (h : (s.completed_payments.length : Int) ≤ idx) :
    confirm_payment s idx tx success =
      .ok (if s.completed_payments.all terminalB then complete_batch_node s
           else s) ∧
    (complete_batch_node s).completed_payments = s.completed_payments ∧
    (complete_batch_node s).failed_payments = s.failed_payments ∧
    (complete_batch_node s).payments = s.payments ∧
    (complete_batch_node s).status = "completed" := by
  obtain ⟨h1, h2, h3, h4⟩ := complete_batch_node_frame s
  refine ⟨?_, h1, h2, h3, h4⟩
  unfold confirm_payment
  rw [if_neg (not_lt.mpr h)]

/-- The prepared (not yet executed) one-leg batch. -/
def stW9 : MultiPaymentState :=
  (start_batch "w9" "0xU" [legStd]).toOption.getD (batch_initial "x" "y" [])

/-- Witness for `C9_amended` at index 5 of the prepared batch. -/
theorem C9_amended_witness :
    confirm_payment stW9 5 "0xh" true =
      .ok (if stW9.completed_payments.all terminalB then complete_batch_node stW9
           else stW9) ∧
    (complete_batch_node stW9).completed_payments = stW9.completed_payments ∧
    (complete_batch_node stW9).failed_payments = stW9.failed_payments ∧
    (complete_batch_node stW9).payments = stW9.payments ∧
    (complete_batch_node stW9).status = "completed" :=
  C9_amended stW9 5 "0xh" true (by decide)

/-- One execution-intent message per leg, indices starting at `i`: the
system messages emitted by `execute_batch_node`'s loop. -/
def intent_msgs : Nat → List Leg → List Msg
  | _, [] => []
  | i, p :: rest => ⟨"system", .executeBatchLeg i p⟩ :: intent_msgs (i + 1) rest

lemma exec_legs_spec (now : Int) (l : List Leg) :
    ∀ (i : Nat) (s : MultiPaymentState),
    (exec_legs now l i s).completed_payments
        = s.completed_payments ++ l.map (fun p => mkPending p now) ∧
    (exec_legs now l i s).messages = s.messages ++ intent_msgs i l ∧
    (exec_legs now l i s).payments = s.payments ∧
    (exec_legs now l i s).failed_payments = s.failed_payments := by
  induction l with
  | nil => intro i s; simp [exec_legs, intent_msgs]
  | cons p rest ih =>
    intro i s
    obtain ⟨h1, h2, h3, h4⟩ := ih (i + 1)
      { s with current_index := i,
               messages := s.messages ++ [⟨"system", .executeBatchLeg i p⟩],
               completed_payments := s.completed_payments ++ [mkPending p now] }
    refine ⟨?_, ?_, ?_, ?_⟩ <;>
      simp only [exec_legs, h1, h2, h3, h4] <;> simp [intent_msgs]

lemma approve_and_execute_spec (s : MultiPaymentState) (now : Int) :
    (approve_and_execute s now).completed_payments
      = s.completed_payments ++ s.payments.map (fun p => mkPending p now) ∧
    (approve_and_execute s now).messages = s.messages ++ intent_msgs 0 s.payments ∧
    (approve_and_execute s now).payments = s.payments := by
  obtain ⟨h1, h2, h3, h4⟩ := exec_legs_spec now s.payments 0
    { s with requires_approval := false, status := "processing" }
  unfold approve_and_execute execute_batch_node
  dsimp only
  exact ⟨by rw [h1], by rw [h2], by rw [h3]⟩

/-- C10: every call of `approve_and_execute` on a batch session appends one
`pending_confirmation` record per leg (in the legs' original order) to
`completed_payments`, emits one execution-intent message per leg carrying
its index, and leaves the leg list unchanged; the operation is therefore not
idempotent — two calls leave `2 * n` additional records. -/
theorem C10_theorem (s : MultiPaymentState) (now now2 : Int) :
    (approve_and_execute s now).completed_payments
      = s.completed_payments ++ s.payments.map (fun p => mkPending p now) ∧
    (approve_and_execute s now).messages
      = s.messages ++ intent_msgs 0 s.payments ∧
    (approve_and_execute s now).payments = s.payments ∧
    (approve_and_execute (approve_and_execute s now) now2).completed_payments.length
      = s.completed_payments.length + 2 * s.payments.length := by
  obtain ⟨h1, h2, h3⟩ := approve_and_execute_spec s now
  obtain ⟨g1, _, _⟩ := approve_and_execute_spec (approve_and_execute s now) now2
  refine ⟨h1, h2, h3, ?_⟩
  rw [g1, h1, h3]
  simp [List.length_append]
  omega

/-- A schedule entry dict as created by `SchedulerRunner.add_scheduled_payment`
(multi_payment_agent.py lines 405-417). `execute_at` and
`recurring_interval_seconds` are always-present keys that may hold Python
`None` (the inner `Option`); the outer `none` stands for a record missing
the key, which `add_scheduled_payment` never produces. -/
structure SchedEntry where
  id : String
  recipient : String
  amount : String
  token : String
  schedule_type : String
  execute_at : Option (Option Int)
  recurring_interval_seconds : Option (Option Int)
  status : String
  last_executed : Option Int
  execution_count : Nat
  created_at : Int
deriving DecidableEq, Repr

/-- `SchedulerRunner.add_scheduled_payment` (lines 390-420): the stored
record (`status 'pending'`, `last_executed None`, `execution_count 0`). -/
def add_scheduled_payment (payment_id recipient amount token
    schedule_type : String) (execute_at : Option Int)
    (recurring_interval_seconds : Option Int) (created_at : Int) : SchedEntry :=
  { id := payment_id, recipient := recipient, amount := amount, token := token,
    schedule_type := schedule_type, execute_at := some execute_at,
    recurring_interval_seconds := some recurring_interval_seconds,
    status := "pending", last_executed := none, execution_count := 0,
    created_at := created_at }

/-- `payment.get(key, default)` on a slot that may be absent (`none`) or
hold Python `None` (`some none`). -/
def dictGetSlot (slot : Option (Option Int)) (dflt : Int) : Option Int :=
  match slot with
  | none => some dflt
  | some v => v

/-- `datetime.fromisoformat(payment.get('execute_at', ''))` of the
`scheduled` branch (line 178): an absent key gives `''` (`ValueError`), a
stored `None` raises `TypeError`, a stored ISO timestamp parses to its
epoch value. -/
def fromisoformat_slot : Option (Option Int) → Except String Int
  | none => .error "ValueError: Invalid isoformat string"
  | some none => .error "TypeError: fromisoformat argument must be str, not NoneType"
  | some (some t) => .ok t

/-- Eligibility of one entry (`check_schedule_node`, lines 172-196). For a
`recurring` previously-executed entry the interval is
`payment.get('recurring_interval_seconds', 86400)`; entries created by
`add_scheduled_payment` always carry the key, so a stored `None` reaches
the float-to-`None` comparison and raises `TypeError`. Unknown kinds
(including `conditional`) are never due. -/
def entry_due (p : SchedEntry) (now : Int) : Except String Bool :=
  if p.schedule_type = "immediate" then .ok true
  else if p.schedule_type = "scheduled" then
    match fromisoformat_slot p.execute_at with
    | .error e => .error e
    | .ok t => .ok (decide (t ≤ now))
  else if p.schedule_type = "recurring" then
    match p.last_executed with
    | some last =>
      match dictGetSlot p.recurring_interval_seconds 86400 with
      | some interval => .ok (decide (interval ≤ now - last))
      | none => .error "TypeError: not supported between float and NoneType"
    | none =>
      match p.execute_at.join with
      | some t => .ok (decide (t ≤ now))
      | none => .ok true
  else .ok false

/-- The scan of `check_schedule_node` (lines 166-198) building
`pending_executions` in entry order, skipping entries whose status is not
`pending`. -/
def check_schedule : List SchedEntry → Int → Except String (List String)
  | [], _ => .ok []
  | p :: rest, now =>
    if p.status ≠ "pending" then check_schedule rest now
    else
      match entry_due p now with
      | .error e => .error e
      | .ok true => (check_schedule rest now).map (fun l => p.id :: l)
      | .ok false => check_schedule rest now

/-- The record update of `execute_scheduled_node` (lines 236-242): set
`last_executed`, bump `execution_count`, and mark non-`recurring` entries
`executed`. -/
def upd_entry (p : SchedEntry) (now : Int) : SchedEntry :=
  let p := { p with last_executed := some now,
                    execution_count := p.execution_count + 1 }
  if p.schedule_type ≠ "recurring" then { p with status := "executed" } else p

/-- The execution-intent message of `execute_scheduled_node` (lines 225-234). -/
def sched_msg (p : SchedEntry) : Msg :=
  ⟨"system", .executeScheduled p.id p.recipient p.amount p.token⟩

/-- `next(p for p in scheduled_payments if p['id'] == payment_id)` plus the
in-place mutation: update the first entry with the given id (no-op when the
id is absent), returning the new list and the emitted message. -/
def update_first : List SchedEntry → String → Int → List SchedEntry × List Msg
  | [], _, _ => ([], [])
  | p :: rest, pid, now =>
    if p.id = pid then (upd_entry p now :: rest, [sched_msg p])
    else
      let r := update_first rest pid now
      (p :: r.1, r.2)

/-- The loop of `execute_scheduled_node` (lines 214-245) over the pending
ids. -/
def execute_scheduled :
    List SchedEntry → List String → Int → List SchedEntry × List Msg
  | entries, [], _ => (entries, [])
  | entries, pid :: rest, now =>
    let r1 := update_first entries pid now
    let r2 := execute_scheduled r1.1 rest now
    (r2.1, r1.2 ++ r2.2)

/-- `SchedulerRunner.check_and_execute` (lines 422-441): one scheduler cycle
over a snapshot of the user's entries — the `check` node, then (when
anything is due, per the `should_execute` edge) the `execute` node — at the
injected clock value `now`. Returns the updated entries, the pending ids
and the emitted messages. -/
def run_cycle (entries : List SchedEntry) (now : Int) :
    Except String (List SchedEntry × List String × List Msg) :=
  match check_schedule entries now with
  | .error e => .error e
  | .ok pending =>
    if pending = [] then
      .ok (entries, pending,
        [⟨"assistant", .text "No payments due at this time."⟩])
    else
      let r := execute_scheduled entries pending now
      .ok (r.1, pending,
        ⟨"assistant", .text ("Found " ++ natStr pending.length ++
          " scheduled payments ready for execution.")⟩ :: r.2)

/-- The schedule-entry id an execution-intent message refers to. -/
def msg_sched_id (m : Msg) : Option String :=
  match m.content with
  | .executeScheduled pid _ _ _ => some pid
  | _ => none

/-- `next((p for p in l if p['id'] == pid), None)`. -/
def find_by_id (pid : String) : List SchedEntry → Option SchedEntry
  | [] => none
  | p :: rest => if p.id = pid then some p else find_by_id pid rest

lemma check_schedule_sublist :
    ∀ (entries : List SchedEntry) (now : Int) (pending : List String),
    check_schedule entries now = .ok pending →
    pending.Sublist (entries.map SchedEntry.id) := by
  intro entries
  induction entries with
  | nil =>
    intro now pending h
    simp only [check_schedule] at h
    injection h with h'
    subst h'
    simp
  | cons p rest ih =>
    intro now pending h
    simp only [check_schedule] at h
    by_cases hs : p.status ≠ "pending"
    · rw [if_pos hs] at h
      exact (ih now pending h).cons _
    · rw [if_neg hs] at h
      cases hd : entry_due p now with
      | error e => rw [hd] at h; exact absurd h (by simp)
      | ok b =>
        rw [hd] at h
        cases b with
        | false => exact (ih now pending h).cons _
        | true =>
          cases hr : check_schedule rest now with
          | error e => rw [hr] at h; simp [Except.map] at h
          | ok l =>
            rw [hr] at h
            simp only [Except.map] at h
            injection h with h'
            subst h'
            exact (ih now l hr).cons₂ _

lemma check_schedule_skip :
    ∀ (entries : List SchedEntry) (now : Int) (pending : List String)
      (e : SchedEntry),
    (entries.map SchedEntry.id).Nodup → e ∈ entries → e.status ≠ "pending" →
    check_schedule entries now = .ok pending → e.id ∉ pending := by
  intro entries
  induction entries with
  | nil => intro now pending e _ he; exact absurd he (by simp)
  | cons p rest ih =>
    intro now pending e hN he hs h
    simp only [List.map_cons, List.nodup_cons] at hN
    obtain ⟨hpid, hNrest⟩ := hN
    simp only [check_schedule] at h
    rcases List.mem_cons.mp he with he1 | he2
    · subst he1
      rw [if_pos hs] at h
      intro hmem
      exact hpid (((check_schedule_sublist rest now pending h).subset) hmem)
    · have hne : e.id ≠ p.id := by
        intro hq
        exact hpid (hq ▸ List.mem_map_of_mem SchedEntry.id he2)
      by_cases hps : p.status ≠ "pending"
      · rw [if_pos hps] at h
        exact ih now pending e hNrest he2 hs h
      · rw [if_neg hps] at h
        cases hd : entry_due p now with
        | error er => rw [hd] at h; exact absurd h (by simp)
        | ok b =>
          rw [hd] at h
          cases b with
          | false => exact ih now pending e hNrest he2 hs h
          | true =>
            cases hr : check_schedule rest now with
            | error er => rw [hr] at h; simp [Except.map] at h
            | ok l =>
              rw [hr] at h
              simp only [Except.map] at h
              injection h with h'
              subst h'
              intro hmem
              rcases List.mem_cons.mp hmem with h1 | h2
              · exact hne h1
              · exact ih now l e hNrest he2 hs hr h2

lemma update_first_preserve {e : SchedEntry} :
    ∀ (l : List SchedEntry) (pid : String) (now : Int),
    e ∈ l → e.id ≠ pid → e ∈ (update_first l pid now).1 := by
  intro l
  induction l with
  | nil => intro pid now he; exact absurd he (by simp)
  | cons p rest ih =>
    intro pid now he hne
    rcases List.mem_cons.mp he with he1 | he2
    · subst he1
      rw [update_first, if_neg hne]
      exact List.mem_cons_self _ _
    · by_cases hp : p.id = pid
      · rw [update_first, if_pos hp]
        exact List.mem_cons_of_mem _ he2
      · rw [update_first, if_neg hp]
        exact List.mem_cons_of_mem _ (ih pid now he2 hne)

lemma update_first_msgs :
    ∀ (l : List SchedEntry) (pid : String) (now : Int) (m : Msg),
    m ∈ (update_first l pid now).2 → msg_sched_id m = some pid := by
  intro l
  induction l with
  | nil => intro pid now m hm; exact absurd hm (by simp [update_first])
  | cons p rest ih =>
    intro pid now m hm
    by_cases hp : p.id = pid
    · rw [update_first, if_pos hp] at hm
      rcases List.mem_singleton.mp hm with rfl
      simp [sched_msg, msg_sched_id, hp]
    · rw [update_first, if_neg hp] at hm
      exact ih pid now m hm

lemma execute_scheduled_preserve {e : SchedEntry} :
    ∀ (pending : List String) (entries : List SchedEntry) (now : Int),
    e ∈ entries → e.id ∉ pending →
    e ∈ (execute_scheduled entries pending now).1 := by
  intro pending
  induction pending with
  | nil => intro entries now he _; exact he
  | cons pid rest ih =>
    intro entries now he hnm
    simp only [List.mem_cons, not_or] at hnm
    exact ih _ now (update_first_preserve entries pid now he hnm.1) hnm.2

lemma execute_scheduled_msgs :
    ∀ (pending : List String) (entries : List SchedEntry) (now : Int) (m : Msg),
    m ∈ (execute_scheduled entries pending now).2 →
    ∃ pid ∈ pending, msg_sched_id m = some pid := by
  intro pending
  induction pending with
  | nil => intro entries now m hm; exact absurd hm (by simp [execute_scheduled])
  | cons pid rest ih =>
    intro entries now m hm
    simp only [execute_scheduled, List.mem_append] at hm
    rcases hm with hm1 | hm2
    · exact ⟨pid, List.mem_cons_self _ _, update_first_msgs entries pid now m hm1⟩
    · obtain ⟨pid', hp1, hp2⟩ := ih _ now m hm2
      exact ⟨pid', List.mem_cons_of_mem _ hp1, hp2⟩

lemma upd_entry_id (p : SchedEntry) (now : Int) : (upd_entry p now).id = p.id := by
  unfold upd_entry
  by_cases h : p.schedule_type ≠ "recurring" <;> simp [h]

lemma find_update_first_other :
    ∀ (l : List SchedEntry) (pid pid' : String) (now : Int), pid' ≠ pid →
    find_by_id pid' (update_first l pid now).1 = find_by_id pid' l := by
  intro l
  induction l with
  | nil => intro pid pid' now _; rfl
  | cons p rest ih =>
    intro pid pid' now hne
    by_cases hp : p.id = pid
    · rw [update_first, if_pos hp]
      have h1 : ¬ (upd_entry p now).id = pid' := by
        rw [upd_entry_id, hp]
        exact fun hq => hne hq.symm
      have h2 : ¬ p.id = pid' := by
        rw [hp]
        exact fun hq => hne hq.symm
      rw [find_by_id, if_neg h1, find_by_id, if_neg h2]
    · rw [update_first, if_neg hp]
      by_cases hp' : p.id = pid'
      · rw [find_by_id, if_pos hp', find_by_id, if_pos hp']
      · rw [find_by_id, if_neg hp', find_by_id, if_neg hp']
        exact ih pid pid' now hne

lemma find_update_first_self :
    ∀ (l : List SchedEntry) (pid : String) (now : Int) (p : SchedEntry),
    find_by_id pid l = some p →
    find_by_id pid (update_first l pid now).1 = some (upd_entry p now) := by
  intro l
  induction l with
  | nil => intro pid now p h; exact absurd h (by simp [find_by_id])
  | cons q rest ih =>
    intro pid now p h
    by_cases hq : q.id = pid
    · rw [find_by_id, if_pos hq] at h
      injection h with h'
      subst h'
      rw [update_first, if_pos hq, find_by_id, if_pos (by rw [upd_entry_id]; exact hq)]
    · rw [find_by_id, if_neg hq] at h
      rw [update_first, if_neg hq, find_by_id, if_neg hq]
      exact ih pid now p h

lemma find_execute_scheduled_not_mem {x : String} :
    ∀ (pending : List String) (entries : List SchedEntry) (now : Int),
    x ∉ pending →
    find_by_id x (execute_scheduled entries pending now).1 =
      find_by_id x entries := by
  intro pending
  induction pending with
  | nil => intro entries now _; rfl
  | cons pid rest ih =>
    intro entries now hnm
    simp only [List.mem_cons, not_or] at hnm
    rw [execute_scheduled]
    rw [ih _ now hnm.2]
    exact find_update_first_other entries pid x now hnm.1

lemma find_mem_nodup {e : SchedEntry} :
    ∀ (entries : List SchedEntry),
    (entries.map SchedEntry.id).Nodup → e ∈ entries →
    find_by_id e.id entries = some e := by
  intro entries
  induction entries with
  | nil => intro _ he; exact absurd he (by simp)
  | cons p rest ih =>
    intro hN he
    simp only [List.map_cons, List.nodup_cons] at hN
    obtain ⟨hpid, hNrest⟩ := hN
    rcases List.mem_cons.mp he with he1 | he2
    · subst he1
      rw [find_by_id, if_pos rfl]
    · have hne : ¬ p.id = e.id := by
        intro hq
        exact hpid (hq ▸ List.mem_map_of_mem SchedEntry.id he2)
      rw [find_by_id, if_neg hne]
      exact ih hNrest he2

lemma find_execute_scheduled_fire {e : SchedEntry} :
    ∀ (pending : List String) (entries : List SchedEntry) (now : Int),
    pending.Nodup → e.id ∈ pending → find_by_id e.id entries = some e →
    find_by_id e.id (execute_scheduled entries pending now).1 =
      some (upd_entry e now) := by
  intro pending
  induction pending with
  | nil => intro entries now _ hm; exact absurd hm (by simp)
  | cons pid rest ih =>
    intro entries now hN hm hf
    simp only [List.nodup_cons] at hN
    rcases List.mem_cons.mp hm with hm1 | hm2
    · subst hm1
      rw [execute_scheduled]
      rw [find_execute_scheduled_not_mem rest _ now hN.1]
      exact find_update_first_self entries e.id now e hf
    · have hne : e.id ≠ pid := by
        intro hq
        rw [hq] at hm2
        exact hN.1 hm2
      rw [execute_scheduled]
      refine ih _ now hN.2 hm2 ?_
      rw [find_update_first_other entries pid e.id now hne]
      exact hf

/-- C8: over any store with distinct entry ids (the API keys entries by
`uuid4`), a scheduler cycle never selects, fires, or touches an entry whose
status is not `pending` (covering both `executed` and `cancelled`), and
firing a pending non-`recurring` entry records `last_executed`, bumps the
count and sets its status to `executed` — so no later cycle can fire it
again. -/
theorem C8_theorem (entries : List SchedEntry) (now : Int)
    (es : List SchedEntry) (pending : List String) (msgs : List Msg)
    (e : SchedEntry) (hN : (entries.map SchedEntry.id).Nodup)
    (he : e ∈ entries)
    (hc : run_cycle entries now = .ok (es, pending, msgs)) :
    (e.status ≠ "pending" →
      e.id ∉ pending ∧ e ∈ es ∧ ∀ m ∈ msgs, msg_sched_id m ≠ some e.id) ∧
    (e.status = "pending" → e.schedule_type ≠ "recurring" → e.id ∈ pending →
      find_by_id e.id es =
        some { e with
                 status := "executed",
                 last_executed := some now,
                 execution_count := e.execution_count + 1 }) := by
  unfold run_cycle at hc
  cases hch : check_schedule entries now with
  | error er => rw [hch] at hc; simp at hc
  | ok p' =>
    rw [hch] at hc
    dsimp only at hc
    by_cases hemp : p' = []
    · rw [if_pos hemp] at hc
      simp only [Except.ok.injEq, Prod.mk.injEq] at hc
      obtain ⟨rfl, rfl, rfl⟩ := hc
      subst hemp
      constructor
      · intro _
        refine ⟨by simp, he, ?_⟩
        intro m hm
        rcases List.mem_singleton.mp hm with rfl
        simp [msg_sched_id]
      · intro _ _ hmem
        exact absurd hmem (by simp)
    · rw [if_neg hemp] at hc
      simp only [Except.ok.injEq, Prod.mk.injEq] at hc
      obtain ⟨rfl, rfl, rfl⟩ := hc
      constructor
      · intro hs
        have hnm : e.id ∉ p' := check_schedule_skip entries now p' e hN he hs hch
        refine ⟨hnm, execute_scheduled_preserve p' entries now he hnm, ?_⟩
        intro m hm
        rcases List.mem_cons.mp hm with rfl | hm2
        · simp [msg_sched_id]
        · obtain ⟨pid, hp1, hp2⟩ := execute_scheduled_msgs p' entries now m hm2
          rw [hp2]
          intro hq
          injection hq with hq'
          exact hnm (hq' ▸ hp1)
      · intro _ hrec hmem
        have hNp : p'.Nodup :=
          (check_schedule_sublist entries now p' hch).nodup hN
        have hfind := find_mem_nodup entries hN he
        rw [find_execute_scheduled_fire p' entries now hNp hmem hfind]
        have : upd_entry e now =
            { e with
                status := "executed",
                last_executed := some now,
                execution_count := e.execution_count + 1 } := by
          unfold upd_entry
          rw [if_pos (by simpa using hrec)]
        rw [this]

/-- A `scheduled` one-shot entry due at time 10. -/
def e8w : SchedEntry :=
  add_scheduled_payment "p8" "0xR" "5" "USDC" "scheduled" (some 10) none 0

/-- The cycle over `[e8w]` at time 20. -/
def cyc8 : List SchedEntry × List String × List Msg :=
  (run_cycle [e8w] 20).toOption.getD ([], [], [])

/-- Witness for `C8_theorem` on the concrete one-entry store. -/
theorem C8_theorem_witness :
    (e8w.status ≠ "pending" →
      e8w.id ∉ cyc8.2.1 ∧ e8w ∈ cyc8.1 ∧
        ∀ m ∈ cyc8.2.2, msg_sched_id m ≠ some e8w.id) ∧
    (e8w.status = "pending" → e8w.schedule_type ≠ "recurring" →
      e8w.id ∈ cyc8.2.1 →
      find_by_id e8w.id cyc8.1 =
        some { e8w with
                 status := "executed",
                 last_executed := some 20,
                 execution_count := e8w.execution_count + 1 }) :=
  C8_theorem [e8w] 20 cyc8.1 cyc8.2.1 cyc8.2.2 e8w (by decide)
    (by decide) rfl

/-- A `recurring` entry whose interval was left unset (stored `None`), as
`add_scheduled_payment` records it. -/
def e7n : SchedEntry :=
  add_scheduled_payment "c7" "0xR" "5" "USDC" "recurring" none none 0

/-- C7 counterexample: the recurring entry with interval `None` fires once
(never-executed rule) and stays `pending` with `last_executed` set; the next
cycle — at a time far beyond the claimed 24h default — does not mark it
eligible but raises `TypeError` comparing the elapsed seconds with `None`:
the `.get(key, 86400)` default never applies because the key is stored with
value `None`. -/
theorem C7_counterexample :
    (run_cycle [e7n] 0).toOption.map
        (fun r => (r.1.map SchedEntry.status, r.1.map SchedEntry.last_executed))
      = some (["pending"], [some 0]) ∧
    exceptError ((run_cycle [e7n] 0).bind (fun r => run_cycle r.1 100000))
      = some "TypeError: not supported between float and NoneType" ∧
    ((86400 : Int) ≤ 100000 - 0) := by
  refine ⟨by decide, by decide, by decide⟩

/-- C7 amended: for a pending recurring entry executed at least once, a
cycle marks it eligible iff `now - last_executed ≥ recurring_interval` —
when the interval is stored as an integer. The 86400-second default applies
only to a record missing the key entirely (which `add_scheduled_payment`
never produces); an entry whose stored interval is `None` makes the cycle
raise `TypeError` instead (see `C7_counterexample`). -/
theorem C7_amended (e : SchedEntry) (now last : Int)
    (h1 : e.status = "pending") (h2 : e.schedule_type = "recurring")
    (h3 : e.last_executed = some last) :
    (∀ iv : Int, e.recurring_interval_seconds = some (some iv) →
      check_schedule [e] now =
        .ok (if iv ≤ now - last then [e.id] else [])) ∧
    (e.recurring_interval_seconds = none →
      check_schedule [e] now =
        .ok (if (86400 : Int) ≤ now - last then [e.id] else [])) := by
  constructor
  · intro iv hint
    have hd : entry_due e now = .ok (decide (iv ≤ now - last)) := by
      unfold entry_due
      rw [h2, h3, hint]
      simp [dictGetSlot]
    unfold check_schedule
    rw [if_neg (by simp [h1]), hd]
    by_cases hcmp : iv ≤ now - last
    · simp [hcmp, check_schedule, Except.map]
    · simp [hcmp, check_schedule]
  · intro hint
    have hd : entry_due e now = .ok (decide ((86400 : Int) ≤ now - last)) := by
      unfold entry_due
      rw [h2, h3, hint]
      simp [dictGetSlot]
    unfold check_schedule
    rw [if_neg (by simp [h1]), hd]
    by_cases hcmp : (86400 : Int) ≤ now - last
    · simp [hcmp, check_schedule, Except.map]
    · simp [hcmp, check_schedule]

/-- A recurring entry with a 3600s interval, already fired once at time 0. -/
def e7w : SchedEntry :=
  upd_entry
    (add_scheduled_payment "w7" "0xR" "5" "USDC" "recurring" none (some 3600) 0) 0

/-- Witness for `C7_amended`: with `recurring_interval = 3600`,
`last_executed = now - 3600` is selected and `last_executed = now - 1800`
is not. -/
theorem C7_amended_witness :
    check_schedule [e7w] 3600 =
      .ok (if (3600 : Int) ≤ 3600 - 0 then [e7w.id] else []) ∧
    check_schedule [e7w] 1800 =
      .ok (if (3600 : Int) ≤ 1800 - 0 then [e7w.id] else []) :=
  ⟨(C7_amended e7w 3600 0 (by decide) (by decide) (by decide)).1 3600 (by decide),
   (C7_amended e7w 1800 0 (by decide) (by decide) (by decide)).1 3600 (by decide)⟩

/-- A `scheduled` entry added without an `execute_at` timestamp. -/
def e4n : SchedEntry :=
  add_scheduled_payment "c4" "0xR" "5" "USDC" "scheduled" none none 0

/-- C4: two core transitions let exceptions escape uncaught instead of
recording the failure in the returned state. A scheduler cycle over a
`scheduled` entry whose `execute_at` is unset raises `TypeError` from
`datetime.fromisoformat(None)` (check_schedule_node line 178), and batch
preparation over a leg whose amount is not numeric raises `ValueError` from
`float('abc')` (prepare_batch_node line 92) — both contradict the spec's
error-handling policy, which is the documented intent. -/
theorem C4_theorem :
    exceptError (run_cycle [e4n] 50)
      = some "TypeError: fromisoformat argument must be str, not NoneType" ∧
    exceptError (start_batch "s4" "0xU" [⟨"0xBob", some "abc", none⟩])
      = some "ValueError: could not convert string to float" := by
  refine ⟨by decide, by decide⟩
